import Mathlib

/-!
Shallow embedding of `rainlanguage/forker` (`src/lib.rs`): a fork session
manager over an external EVM execution engine (foundry/revm).

The core state is `Forker` = an `ExecutorState` (the engine-side state the
core observes: held `Env` configuration, the backend's active local fork id,
and per-fork persisted snapshot stores) together with the `forks` registry
mapping `ForkId` (url, block number) to a local fork handle.

External collaborators (the snapshot provisioner `EvmOpts::fork_evm_env`,
`Backend::spawn`, `Backend::select_fork`, `Backend::create_select_fork`,
`Executor::call_raw_with_env`, `Executor::call_raw_committing`) are modelled
by an `EngineOracle` of response functions; every interaction with them is
additionally recorded in a trace of `EngineEvent`s so that theorems can speak
about which engine operations an API call performs and with which arguments.

Rust `&mut self` mutation is modelled by explicit state passing: operations
return the post-state.  `Result::unwrap()` on a failed provisioning fetch is
modelled by the distinguished `OpResult.panicked` outcome (a Rust panic
returns no state to the caller).  `U256` handles are modelled as `Nat`
(values produced are always `forks.len()`, far below `2^256`).
-/

/-- Fork identity: `ForkId::new(fork_url, fork_block_number)`.  `none` block
number means "latest" and is a distinct identity from any pinned height. -/
structure ForkId where
  url : String
  block_number : Option Nat
deriving DecidableEq

/-- The configuration part of a revm `Env` that this layer reads
(`env.cfg.spec_id` is read to build the scratch `JournaledState`). -/
structure CfgEnv where
  spec_id : Nat
deriving DecidableEq

/-- The transaction part of a revm `Env` that this layer writes:
`tx.caller`, `tx.data`, `tx.transact_to` (the `Call` target address) and
`tx.value`.  Addresses and byte payloads are byte lists. -/
structure TxEnv where
  caller : List Nat
  data : List Nat
  transact_to : List Nat
  value : Nat
deriving DecidableEq

/-- revm `Env`, restricted to the fields the core reads or writes. -/
structure Env where
  cfg : CfgEnv
  tx : TxEnv
deriving DecidableEq

/-- `Env::default()`: zero caller address, empty calldata, zero target
address, zero value. -/
def Env.default : Env :=
  { cfg := { spec_id := 0 }
    tx := { caller := List.replicate 20 0
            data := []
            transact_to := List.replicate 20 0
            value := 0 } }

/-- alloy `Address`: a byte string of length exactly 20. -/
abbrev Address : Type := { l : List Nat // l.length = 20 }

/-- `u64::MAX`, used for the `gas_limit` and `memory_limit` fields of
`EvmOpts`. -/
def uMax : Nat := 2 ^ 64 - 1

/-- The `foundry_evm::opts::Env` fields this layer sets explicitly
(`chain_id`, `code_size_limit`, `gas_limit`; the rest are defaulted). -/
structure OptsEnv where
  chain_id : Option Nat
  code_size_limit : Option Nat
  gas_limit : Nat
deriving DecidableEq

/-- `EvmOpts`, restricted to the explicitly set fields (`fork_url`,
`fork_block_number`, `env`, `memory_limit`; the rest are defaulted). -/
structure EvmOpts where
  fork_url : Option String
  fork_block_number : Option Nat
  env : OptsEnv
  memory_limit : Nat
deriving DecidableEq

/-- `foundry_evm::fork::CreateFork`: the provisioning request handed to the
engine. -/
structure CreateFork where
  url : String
  enable_caching : Bool
  env : Env
  evm_opts : EvmOpts
deriving DecidableEq

/-- Opaque persisted snapshot state of one fork, owned by the engine;
modelled as an opaque byte blob. -/
abbrev Store := List Nat

/-- `RawCallResult`, restricted to the observable fields (success flag,
return bytes, gas used, logs). -/
structure RawCallResult where
  reverted : Bool
  result : List Nat
  gas_used : Nat
  logs : List (List Nat)
deriving DecidableEq

/-- Engine-side state the core holds through its `Executor`: the held `Env`
configuration (`executor.env`), the backend's currently active local fork id,
the persisted store of each fork, and the configured gas limit. -/
structure ExecutorState where
  env : Env
  active_fork : Option Nat
  stores : List (Nat × Store)
  gas_limit : Option Nat
deriving DecidableEq

/-- The `Forker` session state: executor plus the fork registry
(`HashMap<ForkId, LocalForkId>`, modelled as an association list; keys are
only ever inserted when absent, so insertion is modelled as appending). -/
structure Forker where
  executor : ExecutorState
  forks : List (ForkId × Nat)
deriving DecidableEq

/-- One recorded interaction with an external collaborator, with the
arguments the core passed. -/
inductive EngineEvent where
  | fetchForkEnv (url : String)
  | backendSpawn (cf : CreateFork)
  | isActiveFork (handle : Nat)
  | selectFork (handle : Nat) (envArg : Env)
  | createSelectFork (cf : CreateFork) (envArg : Env)
  | callRawWithEnv (envArg : Env)
  | callRawCommitting (from_addr to_addr data : List Nat) (value : Nat)
deriving DecidableEq

/-- Oracle of external-collaborator responses.  `fetch_fork_env` models
`EvmOpts::fork_evm_env` (network fetch of the remote chain environment);
`spawn` models `Backend::spawn` with an initial fork; `select_fork` and
`create_select_fork` model the backend fork operations (the latter returns
the initial persisted store of the newly created fork on success);
`call_raw_with_env` executes non-committingly against the given store;
`call_raw_committing` executes committingly and returns the updated store. -/
structure EngineOracle where
  fetch_fork_env : String → Except String Env
  spawn : CreateFork → Store
  select_fork : Nat → Env → Except String Unit
  create_select_fork : CreateFork → Env → Except String Store
  call_raw_with_env : Env → Store → Except String RawCallResult
  call_raw_committing : List Nat → List Nat → List Nat → Nat → Store →
    Except String (RawCallResult × Store)

/-- Outcome of an operation on `&mut self`: success with the post-state,
an error report together with the post-state (mutations made before the
error persist), or a Rust panic (no state returned to the caller). -/
inductive OpResult (α : Type) where
  | ok : α → OpResult α
  | err : String → α → OpResult α
  | panicked : String → OpResult α
deriving DecidableEq

/-- First-match lookup in the fork registry (HashMap `get`). -/
def lookupFk : List (ForkId × Nat) → ForkId → Option Nat
  | [], _ => none
  | (k, v) :: t, i => if k = i then some v else lookupFk t i

/-- First-match lookup of a fork's persisted store. -/
def lookupStore : List (Nat × Store) → Nat → Store
  | [], _ => []
  | (k, v) :: t, h => if k = h then v else lookupStore t h

/-- Replace (or append) the persisted store of one fork. -/
def setStore : List (Nat × Store) → Nat → Store → List (Nat × Store)
  | [], h, s => [(h, s)]
  | (k, v) :: t, h, s => if k = h then (h, s) :: t else (k, v) :: setStore t h s

/-- The persisted store of the currently active fork. -/
def Forker.activeStore (f : Forker) : Store :=
  match f.executor.active_fork with
  | some h => lookupStore f.executor.stores h
  | none => []

/-- The execution `Env` that `call` and `alloy_read` build: `Env::default()`
with `tx.caller`, `tx.data` and `tx.transact_to` set (and nothing else: in
particular `tx.value` keeps its default of zero). -/
def txEnvFor (from_address to_address calldata : List Nat) : Env :=
  { Env.default with
    tx := { Env.default.tx with
            caller := from_address
            data := calldata
            transact_to := to_address } }

/-- The `EvmOpts` value both `Forker::new` and the miss branch of
`add_or_select` build for a fork request. -/
def mkEvmOpts (fork_url : String) (fork_block_number : Option Nat) : EvmOpts :=
  { fork_url := some fork_url
    fork_block_number := fork_block_number
    env := { chain_id := none, code_size_limit := none, gas_limit := uMax }
    memory_limit := uMax }

/-- `Forker::new(fork_url, fork_block_number, env, gas_limit)`: fetches the
remote fork environment (`.unwrap()` — a fetch failure panics), spawns the
backend on that fork (which becomes local fork id 0 and the active fork),
builds the executor with the supplied `env` override or the fetched
environment, and seeds the registry with the identity mapped to handle 0. -/
def Forker.new (o : EngineOracle) (fork_url : String)
    (fork_block_number : Option Nat) (env : Option Env)
    (gas_limit : Option Nat) : OpResult Forker × List EngineEvent :=
  let fork_id : ForkId := ⟨fork_url, fork_block_number⟩
  let evm_opts := mkEvmOpts fork_url fork_block_number
  match o.fetch_fork_env fork_url with
  | .error e => (.panicked e, [.fetchForkEnv fork_url])
  | .ok fetched =>
    let create_fork : CreateFork :=
      { url := fork_url, enable_caching := true, env := fetched
        evm_opts := evm_opts }
    let st := o.spawn create_fork
    (.ok { executor :=
             { env := env.getD create_fork.env
               active_fork := some 0
               stores := [(0, st)]
               gas_limit := gas_limit }
           forks := [(fork_id, 0)] },
     [.fetchForkEnv fork_url, .backendSpawn create_fork])

/-- `Forker::add_or_select(fork_url, fork_block_number, env)`: on a registry
hit whose handle is already active, a no-op; on a hit whose handle is not
active, `select_fork` with the override or `Env::default()`; on a miss,
fetch the remote environment (`.unwrap()` — a fetch failure panics), insert
the identity with handle `forks.len()` into the registry, then
`create_select_fork` with the override or the fetched environment (the
registry insertion happens before this call and is retained on its
failure, as the Rust mutation through `&mut self` persists). -/
def Forker.add_or_select (o : EngineOracle) (f : Forker) (fork_url : String)
    (fork_block_number : Option Nat) (env : Option Env) :
    OpResult Forker × List EngineEvent :=
  let fork_id : ForkId := ⟨fork_url, fork_block_number⟩
  match lookupFk f.forks fork_id with
  | some local_fork_id =>
    if f.executor.active_fork = some local_fork_id then
      (.ok f, [.isActiveFork local_fork_id])
    else
      let envArg := env.getD Env.default
      match o.select_fork local_fork_id envArg with
      | .ok _ =>
        (.ok { f with executor :=
                 { f.executor with active_fork := some local_fork_id } },
         [.isActiveFork local_fork_id, .selectFork local_fork_id envArg])
      | .error e =>
        (.err e f,
         [.isActiveFork local_fork_id, .selectFork local_fork_id envArg])
  | none =>
    match o.fetch_fork_env fork_url with
    | .error e => (.panicked e, [.fetchForkEnv fork_url])
    | .ok fetched =>
      let evm_opts := mkEvmOpts fork_url fork_block_number
      let create_fork : CreateFork :=
        { url := fork_url, enable_caching := true, env := fetched
          evm_opts := evm_opts }
      let new_handle := f.forks.length
      let forks2 := f.forks ++ [(fork_id, new_handle)]
      let default_env := create_fork.env
      let envArg := env.getD default_env
      match o.create_select_fork create_fork envArg with
      | .ok st =>
        (.ok { executor :=
                 { f.executor with
                   active_fork := some new_handle
                   stores := f.executor.stores ++ [(new_handle, st)] }
               forks := forks2 },
         [.fetchForkEnv fork_url, .createSelectFork create_fork envArg])
      | .error e =>
        (.err e { f with forks := forks2 },
         [.fetchForkEnv fork_url, .createSelectFork create_fork envArg])

/-- `Forker::call(from_address, to_address, calldata)`: validates both
addresses are exactly 20 bytes (else the `invalid address!` error, before
any engine interaction), builds an `Env::default()` with caller, calldata
and call target set, and executes it non-committingly through
`call_raw_with_env`. -/
def Forker.call (o : EngineOracle) (f : Forker)
    (from_address to_address calldata : List Nat) :
    Except String RawCallResult × Forker × List EngineEvent :=
  if from_address.length ≠ 20 ∨ to_address.length ≠ 20 then
    (.error "invalid address!", f, [])
  else
    let env := txEnvFor from_address to_address calldata
    (o.call_raw_with_env env f.activeStore, f, [.callRawWithEnv env])

/-- `Forker::write(from_address, to_address, calldata, value)`: validates
both addresses are exactly 20 bytes (else the `invalid address!` error,
before any engine interaction), then executes committingly through
`call_raw_committing`; on success the active fork's persisted store is
updated to the engine's post-state. -/
def Forker.write (o : EngineOracle) (f : Forker)
    (from_address to_address calldata : List Nat) (value : Nat) :
    Except String RawCallResult × Forker × List EngineEvent :=
  if from_address.length ≠ 20 ∨ to_address.length ≠ 20 then
    (.error "invalid address!", f, [])
  else
    match o.call_raw_committing from_address to_address calldata value
        f.activeStore with
    | .error e =>
      (.error e, f,
       [.callRawCommitting from_address to_address calldata value])
    | .ok (raw, st) =>
      let stores2 :=
        match f.executor.active_fork with
        | some h => setStore f.executor.stores h st
        | none => f.executor.stores
      (.ok raw, { f with executor := { f.executor with stores := stores2 } },
       [.callRawCommitting from_address to_address calldata value])

/-- `ForkCallError`: the error type of the typed adapters. -/
inductive ForkCallError where
  | ExecutorError : String → ForkCallError
  | TypedError : String → ForkCallError
deriving DecidableEq

/-- Rendering of a byte list inside the debug formatting of a raw result. -/
def bytesRepr : List Nat → String
  | [] => ""
  | b :: t => Nat.repr b ++ "," ++ bytesRepr t

/-- Debug formatting of a `RawCallResult` (the `Raw:{:?}` part of the typed
read error message). -/
def rawCallResultRepr (r : RawCallResult) : String :=
  "RawCallResult(reverted=" ++ (if r.reverted then "true" else "false") ++
    ", result=[" ++ bytesRepr r.result ++ "], gas_used=" ++
    Nat.repr r.gas_used ++ ")"

/-- `Forker::alloy_read(from_address, to_address, call)` for a typed call
with signature name `tn`, ABI-encoded calldata `enc` and return decoder
`dec` (the `SolCall` instance): builds an `Env::default()` with caller,
encoded calldata and call target set, executes it non-committingly, then
decodes the returned bytes; a decode failure is a `TypedError` carrying the
signature name, the decode error and the debug-formatted raw result. -/
def Forker.alloy_read {Ret : Type} (o : EngineOracle) (tn : String)
    (enc : List Nat) (dec : List Nat → Except String Ret) (f : Forker)
    (from_address to_address : Address) :
    Except ForkCallError (RawCallResult × Ret) × Forker × List EngineEvent :=
  let env := txEnvFor from_address.val to_address.val enc
  match o.call_raw_with_env env f.activeStore with
  | .error e => (.error (.ExecutorError e), f, [.callRawWithEnv env])
  | .ok raw =>
    match dec raw.result with
    | .error e =>
      (.error (.TypedError ("Call:" ++ tn ++ " Error:" ++ e ++ " Raw:" ++
         rawCallResultRepr raw)), f, [.callRawWithEnv env])
    | .ok v => (.ok (raw, v), f, [.callRawWithEnv env])

/-- `Forker::alloy_write(from_address, to_address, call, value)` for a typed
call with signature name `tn`, ABI-encoded calldata `enc` and return decoder
`dec`: executes committingly through `call_raw_committing` (updating the
active fork's persisted store on success), then decodes the returned bytes;
a decode failure is a `TypedError` carrying the signature name and the
decode error (unlike `alloy_read`, the raw result is not included). -/
def Forker.alloy_write {Ret : Type} (o : EngineOracle) (tn : String)
    (enc : List Nat) (dec : List Nat → Except String Ret) (f : Forker)
    (from_address to_address : Address) (value : Nat) :
    Except ForkCallError (RawCallResult × Ret) × Forker × List EngineEvent :=
  match o.call_raw_committing from_address.val to_address.val enc value
      f.activeStore with
  | .error e =>
    (.error (.ExecutorError e), f,
     [.callRawCommitting from_address.val to_address.val enc value])
  | .ok (raw, st) =>
    let stores2 :=
      match f.executor.active_fork with
      | some h => setStore f.executor.stores h st
      | none => f.executor.stores
    let f2 : Forker :=
      { f with executor := { f.executor with stores := stores2 } }
    match dec raw.result with
    | .error e =>
      (.error (.TypedError ("Call:" ++ tn ++ " Error:" ++ e)), f2,
       [.callRawCommitting from_address.val to_address.val enc value])
    | .ok v =>
      (.ok (raw, v), f2,
       [.callRawCommitting from_address.val to_address.val enc value])

/-- The spec's `ExecutionEnvironment`: caller, callee, payload, value and
committing flag of one execution request. -/
structure ExecutionEnvironment where
  caller : List Nat
  callee : List Nat
  payload : List Nat
  value : Nat
  committing : Bool
deriving DecidableEq

/-- The execution request an engine event carries, if it is one:
`call_raw_with_env` is the engine's non-committing entry point,
`call_raw_committing` the committing one. -/
def EngineEvent.executionRequest : EngineEvent → Option ExecutionEnvironment
  | .callRawWithEnv env =>
    some { caller := env.tx.caller, callee := env.tx.transact_to
           payload := env.tx.data, value := env.tx.value, committing := false }
  | .callRawCommitting a b d v =>
    some { caller := a, callee := b, payload := d, value := v
           committing := true }
  | _ => none

/-- Number of snapshot-creation engine interactions (Provisioner `create`
calls) in a trace. -/
def provisionCount (t : List EngineEvent) : Nat :=
  t.countP fun e =>
    match e with
    | .createSelectFork _ _ => true
    | .backendSpawn _ => true
    | _ => false

/-- Number of remote-environment fetches in a trace. -/
def fetchCount (t : List EngineEvent) : Nat :=
  t.countP fun e =>
    match e with
    | .fetchForkEnv _ => true
    | _ => false

/-- Number of `select_fork` engine interactions in a trace. -/
def selectCount (t : List EngineEvent) : Nat :=
  t.countP fun e =>
    match e with
    | .selectFork _ _ => true
    | _ => false

/-- Whether `sub` occurs contiguously inside `s`. -/
def hasSub (sub : List Char) : List Char → Bool
  | [] => sub.isEmpty
  | c :: t => sub.isPrefixOf (c :: t) || hasSub sub t

/-- One session step: any API operation on the session state, under a fixed
oracle.  Error outcomes of `add_or_select` are steps too (the mutated state
is returned to the caller); panics return no state and are not steps. -/
inductive Step (o : EngineOracle) : Forker → Forker → Prop where
  | addOk (f f' : Forker) (url : String) (bn : Option Nat) (env : Option Env)
      (t : List EngineEvent)
      (h : Forker.add_or_select o f url bn env = (.ok f', t)) : Step o f f'
  | addErr (f f' : Forker) (url : String) (bn : Option Nat) (env : Option Env)
      (e : String) (t : List EngineEvent)
      (h : Forker.add_or_select o f url bn env = (.err e f', t)) : Step o f f'
  | callStep (f f' : Forker) (a b c : List Nat) (r : Except String RawCallResult)
      (t : List EngineEvent)
      (h : Forker.call o f a b c = (r, f', t)) : Step o f f'
  | writeStep (f f' : Forker) (a b c : List Nat) (v : Nat)
      (r : Except String RawCallResult) (t : List EngineEvent)
      (h : Forker.write o f a b c v = (r, f', t)) : Step o f f'
  | alloyReadStep (f f' : Forker) (Ret : Type) (tn : String) (enc : List Nat)
      (dec : List Nat → Except String Ret) (a b : Address)
      (r : Except ForkCallError (RawCallResult × Ret)) (t : List EngineEvent)
      (h : Forker.alloy_read o tn enc dec f a b = (r, f', t)) : Step o f f'
  | alloyWriteStep (f f' : Forker) (Ret : Type) (tn : String) (enc : List Nat)
      (dec : List Nat → Except String Ret) (a b : Address) (v : Nat)
      (r : Except ForkCallError (RawCallResult × Ret)) (t : List EngineEvent)
      (h : Forker.alloy_write o tn enc dec f a b v = (r, f', t)) : Step o f f'

/-- Zero or more session steps. -/
def ReachesFrom (o : EngineOracle) : Forker → Forker → Prop :=
  Relation.ReflTransGen (Step o)

/-- A session state reachable from some successful `Forker::new`. -/
def Reachable (o : EngineOracle) (f : Forker) : Prop :=
  ∃ url bn env gl f0 tr, Forker.new o url bn env gl = (.ok f0, tr) ∧
    ReachesFrom o f0 f

/-- The registry handle values are exactly `0, 1, ..., n-1` in registration
order. -/
def handlesConsecutive (f : Forker) : Prop :=
  f.forks.map Prod.snd = List.range f.forks.length

/-- The pure decode stage of the typed adapters, applied to the outcome of
the underlying raw call: an engine error is wrapped as `ExecutorError`
(the `From<eyre::Report>` conversion), a decode failure becomes a
`TypedError` whose message carries the signature name, the decode error
and (for `alloy_read` only, `withRaw = true`) the debug-formatted raw
result. -/
def typedDecodeStage {Ret : Type} (tn : String)
    (dec : List Nat → Except String Ret) (withRaw : Bool)
    (r : Except String RawCallResult) :
    Except ForkCallError (RawCallResult × Ret) :=
  match r with
  | .error e => .error (.ExecutorError e)
  | .ok raw =>
    match dec raw.result with
    | .error e =>
      .error (.TypedError (if withRaw then
        "Call:" ++ tn ++ " Error:" ++ e ++ " Raw:" ++ rawCallResultRepr raw
      else "Call:" ++ tn ++ " Error:" ++ e))
    | .ok v => .ok (raw, v)

/-- A fixed concrete raw call result, used as an engine response in the
concrete scenarios below. -/
def rawA : RawCallResult :=
  { reverted := false, result := [1, 2, 3], gas_used := 21000, logs := [] }

/-- A fixed remote chain environment returned by the provisioning fetch in
the concrete scenarios below. -/
def envFetched : Env := { cfg := { spec_id := 1 }, tx := Env.default.tx }

/-- A fixed non-default override environment used in the concrete
scenarios below. -/
def envCustom : Env := { cfg := { spec_id := 7 }, tx := Env.default.tx }

/-- An oracle on which every external interaction succeeds. -/
def oOK : EngineOracle :=
  { fetch_fork_env := fun _ => .ok envFetched
    spawn := fun _ => [0]
    select_fork := fun _ _ => .ok ()
    create_select_fork := fun _ _ => .ok [9]
    call_raw_with_env := fun _ _ => .ok rawA
    call_raw_committing := fun _ _ _ _ s => .ok (rawA, s) }

/-- An oracle on which `create_select_fork` fails (the engine cannot create
the requested fork), everything else succeeding. -/
def oCreateFail : EngineOracle :=
  { oOK with create_select_fork := fun _ _ => .error "rpc down" }

/-- An oracle on which the remote-environment fetch fails (network
failure), everything else succeeding. -/
def oFetchFail : EngineOracle :=
  { oOK with fetch_fork_env := fun _ => .error "connection refused" }

/-- The provisioning request `Forker::new` and `add_or_select` build for
url `u` at latest height on the oracles above. -/
def cfOf (u : String) : CreateFork :=
  { url := u, enable_caching := true, env := envFetched
    evm_opts := mkEvmOpts u none }

/-- The session state produced by
`Forker.new oOK "A" none (some envCustom) none`. -/
def fA : Forker :=
  { executor :=
      { env := envCustom, active_fork := some 0, stores := [(0, [0])]
        gas_limit := none }
    forks := [(⟨"A", none⟩, 0)] }

/-- The session state produced from `fA` by a successful
`add_or_select oOK fA "B" none none` (fork "B" created and selected). -/
def fB : Forker :=
  { executor :=
      { env := envCustom, active_fork := some 1
        stores := [(0, [0]), (1, [9])], gas_limit := none }
    forks := [(⟨"A", none⟩, 0), (⟨"B", none⟩, 1)] }

/-- A concrete 20-byte address. -/
def addr1 : Address := ⟨List.replicate 20 1, by decide⟩

/-- Another concrete 20-byte address. -/
def addr2 : Address := ⟨List.replicate 20 2, by decide⟩

/-- A return decoder that always fails (the declared return shape never
matches), used in the concrete typed-decode scenarios below. -/
def decFail : List Nat → Except String Unit := fun _ => .error "bad"

theorem lookupFk_append_of_some {l : List (ForkId × Nat)} {i : ForkId}
    {v : Nat} (t : List (ForkId × Nat)) (h : lookupFk l i = some v) :
    lookupFk (l ++ t) i = some v := by
  induction l with
  | nil => simp [lookupFk] at h
  | cons a l ih =>
    obtain ⟨k, w⟩ := a
    by_cases hk : k = i <;> simp [lookupFk, hk] at h ⊢
    · exact h
    · exact ih h

theorem lookupFk_append_singleton_of_none {l : List (ForkId × Nat)}
    {i : ForkId} (v : Nat) (h : lookupFk l i = none) :
    lookupFk (l ++ [(i, v)]) i = some v := by
  induction l with
  | nil => simp [lookupFk]
  | cons a l ih =>
    obtain ⟨k, w⟩ := a
    by_cases hk : k = i <;> simp [lookupFk, hk] at h ⊢
    exact ih h

theorem mem_of_lookupFk {l : List (ForkId × Nat)} {i : ForkId} {v : Nat}
    (h : lookupFk l i = some v) : (i, v) ∈ l := by
  induction l with
  | nil => simp [lookupFk] at h
  | cons a l ih =>
    obtain ⟨k, w⟩ := a
    by_cases hk : k = i <;> simp [lookupFk, hk] at h ⊢
    · left; omega
    · right; exact ih h

theorem new_ok_fields {o : EngineOracle} {url : String} {bn : Option Nat}
    {env : Option Env} {gl : Option Nat} {f0 : Forker} {tr : List EngineEvent}
    (h : Forker.new o url bn env gl = (.ok f0, tr)) :
    f0.forks = [(⟨url, bn⟩, 0)] ∧ f0.executor.active_fork = some 0 := by
  simp only [Forker.new] at h
  split at h
  · simp only [Prod.mk.injEq] at h
    exact absurd h.1 (by simp)
  · simp only [Prod.mk.injEq, OpResult.ok.injEq] at h
    obtain ⟨h1, -⟩ := h
    subst h1
    exact ⟨rfl, rfl⟩

theorem call_state_unchanged {o : EngineOracle} {f f' : Forker}
    {a b c : List Nat} {r : Except String RawCallResult}
    {t : List EngineEvent} (h : Forker.call o f a b c = (r, f', t)) :
    f' = f := by
  simp only [Forker.call] at h
  split at h <;>
    simp only [Prod.mk.injEq] at h <;> exact h.2.1.symm

theorem write_forks_unchanged {o : EngineOracle} {f f' : Forker}
    {a b c : List Nat} {v : Nat} {r : Except String RawCallResult}
    {t : List EngineEvent} (h : Forker.write o f a b c v = (r, f', t)) :
    f'.forks = f.forks ∧ f'.executor.active_fork = f.executor.active_fork := by
  simp only [Forker.write] at h
  split at h
  · simp only [Prod.mk.injEq] at h
    cases h.2.1
    exact ⟨rfl, rfl⟩
  · split at h <;> simp only [Prod.mk.injEq] at h <;> cases h.2.1 <;>
      exact ⟨rfl, rfl⟩

theorem alloy_read_state_unchanged {Ret : Type} {o : EngineOracle}
    {tn : String} {enc : List Nat} {dec : List Nat → Except String Ret}
    {f f' : Forker} {a b : Address}
    {r : Except ForkCallError (RawCallResult × Ret)} {t : List EngineEvent}
    (h : Forker.alloy_read o tn enc dec f a b = (r, f', t)) : f' = f := by
  simp only [Forker.alloy_read] at h
  split at h
  · simp only [Prod.mk.injEq] at h
    exact h.2.1.symm
  · split at h <;> simp only [Prod.mk.injEq] at h <;> exact h.2.1.symm

theorem alloy_write_forks_unchanged {Ret : Type} {o : EngineOracle}
    {tn : String} {enc : List Nat} {dec : List Nat → Except String Ret}
    {f f' : Forker} {a b : Address} {v : Nat}
    {r : Except ForkCallError (RawCallResult × Ret)} {t : List EngineEvent}
    (h : Forker.alloy_write o tn enc dec f a b v = (r, f', t)) :
    f'.forks = f.forks ∧ f'.executor.active_fork = f.executor.active_fork := by
  simp only [Forker.alloy_write] at h
  split at h
  · simp only [Prod.mk.injEq] at h
    cases h.2.1
    exact ⟨rfl, rfl⟩
  · split at h <;> simp only [Prod.mk.injEq] at h <;> cases h.2.1 <;>
      exact ⟨rfl, rfl⟩

theorem addOrSelect_forks_shape {o : EngineOracle} {f f' : Forker}
    {url : String} {bn : Option Nat} {env : Option Env}
    (h : (Forker.add_or_select o f url bn env).1 = .ok f' ∨
         ∃ e, (Forker.add_or_select o f url bn env).1 = .err e f') :
    f'.forks = f.forks ∨
      f'.forks = f.forks ++ [(⟨url, bn⟩, f.forks.length)] := by
  simp only [Forker.add_or_select] at h
  split at h
  · split at h
    · obtain h | ⟨e, h⟩ := h <;>
        simp only [OpResult.ok.injEq] at h
      · subst h; exact Or.inl rfl
      · cases h
    · split at h <;> obtain h | ⟨e, h⟩ := h <;>
        simp only [OpResult.ok.injEq, OpResult.err.injEq] at h
      · subst h; exact Or.inl rfl
      · cases h
      · cases h
      · cases h.2; exact Or.inl rfl
  · split at h
    · obtain h | ⟨e, h⟩ := h <;> cases h
    · split at h <;> obtain h | ⟨e, h⟩ := h <;>
        simp only [OpResult.ok.injEq, OpResult.err.injEq] at h
      · subst h; exact Or.inr rfl
      · cases h
      · cases h
      · cases h.2; exact Or.inr rfl

theorem addOrSelect_active_noop {o : EngineOracle} {f : Forker}
    {url : String} {bn : Option Nat} (env : Option Env) {hd : Nat}
    (hreg : lookupFk f.forks ⟨url, bn⟩ = some hd)
    (hact : f.executor.active_fork = some hd) :
    Forker.add_or_select o f url bn env = (.ok f, [.isActiveFork hd]) := by
  simp only [Forker.add_or_select, hreg, hact, if_pos]

theorem addOrSelect_ok_post {o : EngineOracle} {f f' : Forker}
    {url : String} {bn : Option Nat} {env : Option Env} {t : List EngineEvent}
    (h : Forker.add_or_select o f url bn env = (.ok f', t)) :
    ∃ hd, lookupFk f'.forks ⟨url, bn⟩ = some hd ∧
      f'.executor.active_fork = some hd := by
  simp only [Forker.add_or_select] at h
  split at h
  case h_1 lid hl =>
    split at h
    case isTrue hact =>
      simp only [Prod.mk.injEq, OpResult.ok.injEq] at h
      cases h.1
      exact ⟨lid, hl, hact⟩
    case isFalse hact =>
      split at h <;> simp only [Prod.mk.injEq, OpResult.ok.injEq] at h
      · cases h.1
        exact ⟨lid, hl, rfl⟩
      · cases h.1
  case h_2 hl =>
    split at h
    · simp only [Prod.mk.injEq] at h
      exact absurd h.1 (by simp)
    · split at h <;> simp only [Prod.mk.injEq, OpResult.ok.injEq] at h
      · cases h.1
        exact ⟨f.forks.length,
          lookupFk_append_singleton_of_none f.forks.length hl, rfl⟩
      · cases h.1

theorem addOrSelect_trace_provisionCount (o : EngineOracle) (f : Forker)
    (url : String) (bn : Option Nat) (env : Option Env) :
    provisionCount (Forker.add_or_select o f url bn env).2 ≤ 1 := by
  simp only [Forker.add_or_select]
  split
  · split
    · simp [provisionCount]
    · split <;> simp [provisionCount, List.countP, List.countP.go]
  · split
    · simp [provisionCount, List.countP, List.countP.go]
    · split <;> simp [provisionCount, List.countP, List.countP.go]

theorem step_forks_shape {o : EngineOracle} {f f' : Forker}
    (h : Step o f f') :
    f'.forks = f.forks ∨
      ∃ i, f'.forks = f.forks ++ [(i, f.forks.length)] := by
  cases h with
  | addOk url bn env t he =>
    have h0 : (Forker.add_or_select o f url bn env).1 = .ok f' := by rw [he]
    rcases addOrSelect_forks_shape (Or.inl h0) with h1 | h1
    · exact Or.inl h1
    · exact Or.inr ⟨_, h1⟩
  | addErr url bn env e t he =>
    have h0 : (Forker.add_or_select o f url bn env).1 = .err e f' := by
      rw [he]
    rcases addOrSelect_forks_shape (Or.inr ⟨e, h0⟩) with h1 | h1
    · exact Or.inl h1
    · exact Or.inr ⟨_, h1⟩
  | callStep a b c r t he => exact Or.inl (by rw [call_state_unchanged he])
  | writeStep a b c v r t he => exact Or.inl (write_forks_unchanged he).1
  | alloyReadStep Ret tn enc dec a b r t he =>
    exact Or.inl (by rw [alloy_read_state_unchanged he])
  | alloyWriteStep Ret tn enc dec a b v r t he =>
    exact Or.inl (alloy_write_forks_unchanged he).1

theorem step_forks_grow {o : EngineOracle} {f f' : Forker} (h : Step o f f') :
    ∃ t, f'.forks = f.forks ++ t := by
  rcases step_forks_shape h with h1 | ⟨i, h1⟩
  · exact ⟨[], by simp [h1]⟩
  · exact ⟨[(i, f.forks.length)], h1⟩

theorem reachesFrom_forks_grow {o : EngineOracle} {f f' : Forker}
    (h : ReachesFrom o f f') : ∃ t, f'.forks = f.forks ++ t := by
  induction h with
  | refl => exact ⟨[], by simp⟩
  | tail _ hstep ih =>
    obtain ⟨t1, ht1⟩ := ih
    obtain ⟨t2, ht2⟩ := step_forks_grow hstep
    exact ⟨t1 ++ t2, by rw [ht2, ht1, List.append_assoc]⟩

theorem handlesConsecutive_step {o : EngineOracle} {f f' : Forker}
    (hinv : handlesConsecutive f) (h : Step o f f') :
    handlesConsecutive f' := by
  rcases step_forks_shape h with h1 | ⟨i, h1⟩
  · unfold handlesConsecutive
    rw [h1]
    exact hinv
  · unfold handlesConsecutive at hinv ⊢
    rw [h1]
    simp only [List.map_append, List.length_append, List.map_cons,
      List.map_nil, List.length_cons, List.length_nil]
    rw [hinv, Nat.add_comm 0 1, ← Nat.add_zero f.forks.length]
    simp [List.range_succ]

theorem reachable_handlesConsecutive {o : EngineOracle} {f : Forker}
    (h : Reachable o f) : handlesConsecutive f := by
  obtain ⟨url, bn, env, gl, f0, tr, hnew, hreach⟩ := h
  have h0 : handlesConsecutive f0 := by
    unfold handlesConsecutive
    rw [(new_ok_fields hnew).1]
    rfl
  clear hnew
  induction hreach with
  | refl => exact h0
  | tail _ hstep ih => exact handlesConsecutive_step ih hstep

theorem eq_of_mem_of_snd_nodup {l : List (ForkId × Nat)}
    (hnd : (l.map Prod.snd).Nodup) {i j : ForkId} {v : Nat}
    (hi : (i, v) ∈ l) (hj : (j, v) ∈ l) : i = j := by
  induction l with
  | nil => cases hi
  | cons a l ih =>
    obtain ⟨k, w⟩ := a
    simp only [List.map_cons, List.nodup_cons] at hnd
    rcases List.mem_cons.mp hi with hi1 | hi1 <;>
      rcases List.mem_cons.mp hj with hj1 | hj1
    · cases hi1; cases hj1; rfl
    · cases hi1
      exact absurd (List.mem_map_of_mem Prod.snd hj1) hnd.1
    · cases hj1
      exact absurd (List.mem_map_of_mem Prod.snd hi1) hnd.1
    · exact ih hnd.2 hi1 hj1

theorem reachable_registry_injective {o : EngineOracle} {f : Forker}
    (h : Reachable o f) {i j : ForkId} {v : Nat}
    (hi : lookupFk f.forks i = some v) (hj : lookupFk f.forks j = some v) :
    i = j := by
  have hc := reachable_handlesConsecutive h
  unfold handlesConsecutive at hc
  have hnd : (f.forks.map Prod.snd).Nodup := by
    rw [hc]; exact List.nodup_range f.forks.length
  exact eq_of_mem_of_snd_nodup hnd (mem_of_lookupFk hi) (mem_of_lookupFk hj)

theorem addOrSelect_hit_no_provision {o : EngineOracle} {f : Forker}
    {url : String} {bn : Option Nat} (env : Option Env) {hd : Nat}
    (hreg : lookupFk f.forks ⟨url, bn⟩ = some hd) :
    provisionCount (Forker.add_or_select o f url bn env).2 = 0 ∧
      fetchCount (Forker.add_or_select o f url bn env).2 = 0 := by
  simp only [Forker.add_or_select, hreg]
  split
  · simp [provisionCount, fetchCount]
  · split <;> simp [provisionCount, fetchCount, List.countP, List.countP.go]

/-- C1: a `call` or `write` whose `from_address` or `to_address` is not
exactly 20 bytes returns the `invalid address!` error with the session
state untouched and an empty engine-interaction trace: the execution
engine is never invoked before the error is returned. -/
theorem call_write_invalid_address_no_engine (o : EngineOracle) (f : Forker)
    (from_address to_address calldata : List Nat) (value : Nat)
    (h : from_address.length ≠ 20 ∨ to_address.length ≠ 20) :
    Forker.call o f from_address to_address calldata =
      (.error "invalid address!", f, []) ∧
    Forker.write o f from_address to_address calldata value =
      (.error "invalid address!", f, []) := by
  constructor
  · simp only [Forker.call, if_pos h]
  · simp only [Forker.write, if_pos h]

theorem call_write_invalid_address_no_engine_witness :
    Forker.call oOK fA (List.replicate 19 0) (List.replicate 20 0) [] =
      (.error "invalid address!", fA, []) ∧
    Forker.write oOK fA (List.replicate 19 0) (List.replicate 20 0) [] 0 =
      (.error "invalid address!", fA, []) :=
  call_write_invalid_address_no_engine oOK fA (List.replicate 19 0)
    (List.replicate 20 0) [] 0 (by decide)

/-- C9: for 20-byte addresses, `call` builds its execution environment from
`Env::default()` (so `value = 0`), issues it through the engine's
non-committing entry point (`committing = false` in the execution request)
against the active snapshot's store, and returns the session state
unchanged: persisted snapshot state is not mutated by `call`. -/
theorem call_noncommitting_value_zero (o : EngineOracle) (f : Forker)
    (from_address to_address calldata : List Nat)
    (h1 : from_address.length = 20) (h2 : to_address.length = 20) :
    Forker.call o f from_address to_address calldata =
      (o.call_raw_with_env (txEnvFor from_address to_address calldata)
         f.activeStore, f,
       [.callRawWithEnv (txEnvFor from_address to_address calldata)]) ∧
    (EngineEvent.callRawWithEnv
        (txEnvFor from_address to_address calldata)).executionRequest =
      some { caller := from_address, callee := to_address
             payload := calldata, value := 0, committing := false } := by
  constructor
  · simp only [Forker.call, if_neg (by simp [h1, h2] :
      ¬(from_address.length ≠ 20 ∨ to_address.length ≠ 20))]
  · rfl

theorem call_noncommitting_value_zero_witness :
    Forker.call oOK fA (List.replicate 20 1) (List.replicate 20 2) [5] =
      (oOK.call_raw_with_env
         (txEnvFor (List.replicate 20 1) (List.replicate 20 2) [5])
         fA.activeStore, fA,
       [.callRawWithEnv
          (txEnvFor (List.replicate 20 1) (List.replicate 20 2) [5])]) ∧
    (EngineEvent.callRawWithEnv
        (txEnvFor (List.replicate 20 1) (List.replicate 20 2)
          [5])).executionRequest =
      some { caller := List.replicate 20 1, callee := List.replicate 20 2
             payload := [5], value := 0, committing := false } :=
  call_noncommitting_value_zero oOK fA (List.replicate 20 1)
    (List.replicate 20 2) [5] (by decide) (by decide)

/-- C5 (code bug): on an unregistered identity, a failure of the remote
fork-environment fetch makes `add_or_select` (and likewise `Forker::new`)
panic through `.unwrap()` instead of returning an explicit error value:
evaluated at a concrete failing fetch, the outcome is `panicked`, not
`err`. -/
theorem add_or_select_fetch_failure_panics :
    Forker.add_or_select oFetchFail fA "B" none none =
      (.panicked "connection refused", [.fetchForkEnv "B"]) ∧
    Forker.new oFetchFail "A" none none none =
      (.panicked "connection refused", [.fetchForkEnv "A"]) :=
  ⟨by decide, by decide⟩

/-- C7: the typed adapters are pure compositions of encode, raw call/write
and decode: for every pair of 20-byte addresses and every typed request,
`alloy_read` equals the decode stage applied to `call` on the ABI-encoded
bytes (raw result, post-state and engine trace all coincide), and
`alloy_write` equals the decode stage applied to `write` on those bytes
and the same value; in particular the typed adapters introduce no state of
their own beyond that of the underlying raw operation. -/
theorem alloy_typed_pure_composition {Ret : Type} (o : EngineOracle)
    (tn : String) (enc : List Nat) (dec : List Nat → Except String Ret)
    (f : Forker) (a b : Address) (v : Nat) :
    Forker.alloy_read o tn enc dec f a b =
      (typedDecodeStage tn dec true (Forker.call o f a.val b.val enc).1,
       (Forker.call o f a.val b.val enc).2.1,
       (Forker.call o f a.val b.val enc).2.2) ∧
    Forker.alloy_write o tn enc dec f a b v =
      (typedDecodeStage tn dec false (Forker.write o f a.val b.val enc v).1,
       (Forker.write o f a.val b.val enc v).2.1,
       (Forker.write o f a.val b.val enc v).2.2) := by
  have hcond : ¬(a.val.length ≠ 20 ∨ b.val.length ≠ 20) := by
    simp [a.property, b.property]
  constructor
  · simp only [Forker.alloy_read, Forker.call, if_neg hcond]
    cases o.call_raw_with_env (txEnvFor a.val b.val enc) f.activeStore with
    | error e => rfl
    | ok raw =>
      simp only [typedDecodeStage]
      cases dec raw.result <;> rfl
  · simp only [Forker.alloy_write, Forker.write, if_neg hcond]
    cases o.call_raw_committing a.val b.val enc v f.activeStore with
    | error e => rfl
    | ok p =>
      obtain ⟨raw, st⟩ := p
      simp only [typedDecodeStage]
      cases dec raw.result <;> rfl

/-- C3: if an identity resolves to the handle that is already the engine's
active fork, `add_or_select` is a successful no-op: the state is returned
unchanged (no environment override applied) and the only engine
interaction is the activity query — no re-selection, no provisioning.
Consequently, after any successful `add_or_select` for an identity, an
immediately repeated `add_or_select` for the same identity is such a
no-op, and across the two calls the Provisioner creates at most one
fork. -/
theorem add_or_select_idempotent_noop (o : EngineOracle) (f f1 : Forker)
    (url : String) (bn : Option Nat) (env1 env2 : Option Env) (hd : Nat)
    (t1 : List EngineEvent) :
    (lookupFk f.forks ⟨url, bn⟩ = some hd →
      f.executor.active_fork = some hd →
      Forker.add_or_select o f url bn env2 = (.ok f, [.isActiveFork hd])) ∧
    (Forker.add_or_select o f url bn env1 = (.ok f1, t1) →
      ∃ hd1, Forker.add_or_select o f1 url bn env2 =
          (.ok f1, [.isActiveFork hd1]) ∧
        provisionCount t1 + provisionCount [EngineEvent.isActiveFork hd1] ≤ 1 ∧
        selectCount [EngineEvent.isActiveFork hd1] = 0) := by
  constructor
  · intro hreg hact
    exact addOrSelect_active_noop env2 hreg hact
  · intro h1
    obtain ⟨hd1, hreg1, hact1⟩ := addOrSelect_ok_post h1
    refine ⟨hd1, addOrSelect_active_noop env2 hreg1 hact1, ?_, rfl⟩
    have hp := addOrSelect_trace_provisionCount o f url bn env1
    rw [h1] at hp
    simpa [provisionCount, List.countP, List.countP.go] using hp

theorem add_or_select_idempotent_noop_witness :
    ∃ hd1, Forker.add_or_select oOK fB "B" none none =
        (.ok fB, [.isActiveFork hd1]) ∧
      provisionCount [EngineEvent.fetchForkEnv "B",
          EngineEvent.createSelectFork (cfOf "B") envFetched] +
        provisionCount [EngineEvent.isActiveFork hd1] ≤ 1 ∧
      selectCount [EngineEvent.isActiveFork hd1] = 0 :=
  (add_or_select_idempotent_noop oOK fA fB "B" none none none 0
      [EngineEvent.fetchForkEnv "B",
       EngineEvent.createSelectFork (cfOf "B") envFetched]).2 (by decide)

/-- C4 counterexample: in a session whose executor holds a non-default
configuration (`envCustom`), selecting a registered but inactive fork with
no environment override passes `Env::default()` to the engine's
`select_fork` — not the engine's currently held configuration, which
differs from it.  The session state is reached by `Forker::new` with an
override followed by a successful `add_or_select` of a second fork. -/
theorem add_or_select_default_env_cex :
    Forker.new oOK "A" none (some envCustom) none =
      (.ok fA, [.fetchForkEnv "A", .backendSpawn (cfOf "A")]) ∧
    Forker.add_or_select oOK fA "B" none none =
      (.ok fB, [.fetchForkEnv "B", .createSelectFork (cfOf "B") envFetched]) ∧
    (Forker.add_or_select oOK fB "A" none none).2 =
      [.isActiveFork 0, .selectFork 0 Env.default] ∧
    fB.executor.env ≠ Env.default :=
  ⟨by decide, by decide, by decide, by decide⟩

/-- C4 (amended): when `add_or_select` is called with an identity that
resolves to a registered handle which is not currently active, the engine
is asked to activate that handle using the supplied environment override
if one is given, and otherwise using a fresh default configuration
(`Env::default()`), regardless of the engine's currently held
configuration. -/
theorem add_or_select_select_env_argument (o : EngineOracle) (f : Forker)
    (url : String) (bn : Option Nat) (env : Option Env) (hd : Nat)
    (hreg : lookupFk f.forks ⟨url, bn⟩ = some hd)
    (hact : f.executor.active_fork ≠ some hd) :
    (Forker.add_or_select o f url bn env).2 =
      [.isActiveFork hd, .selectFork hd (env.getD Env.default)] := by
  simp only [Forker.add_or_select, hreg, if_neg hact]
  split <;> rfl

theorem add_or_select_select_env_argument_witness :
    (Forker.add_or_select oOK fB "A" none (some envCustom)).2 =
      [.isActiveFork 0,
       .selectFork 0 ((some envCustom).getD Env.default)] :=
  add_or_select_select_env_argument oOK fB "A" none (some envCustom) 0
    (by decide) (by decide)

/-- C2 counterexample: a `create_select_fork` failure on the miss path of
`add_or_select` returns an error whose post-state registry differs from the
pre-state registry: the requested identity was inserted before the engine
call and the insertion is retained on failure. -/
theorem add_or_select_failure_registers_cex :
    Forker.add_or_select oCreateFail fA "B" none none =
      (.err "rpc down"
         { fA with forks := [(⟨"A", none⟩, 0), (⟨"B", none⟩, 1)] },
       [.fetchForkEnv "B", .createSelectFork (cfOf "B") envFetched]) ∧
    ({ fA with forks := [(⟨"A", none⟩, 0), (⟨"B", none⟩, 1)] } :
        Forker).forks ≠ fA.forks :=
  ⟨by decide, by decide⟩

/-- C2 (amended): a failed (error-returning) `add_or_select` leaves the
engine-side state (active fork marker, held configuration, persisted
stores) exactly as before the call, and leaves the registry unchanged on
the registry-hit path; but when fork creation fails on the miss path, the
requested identity remains registered with the next handle, having been
inserted before the failing engine call. -/
theorem add_or_select_failure_state (o : EngineOracle) (f f' : Forker)
    (url : String) (bn : Option Nat) (env : Option Env) (e : String)
    (h : (Forker.add_or_select o f url bn env).1 = .err e f') :
    f'.executor = f.executor ∧
      (f'.forks = f.forks ∨
        f'.forks = f.forks ++ [(⟨url, bn⟩, f.forks.length)]) := by
  refine ⟨?_, addOrSelect_forks_shape (Or.inr ⟨e, h⟩)⟩
  simp only [Forker.add_or_select] at h
  split at h
  · split at h
    · simp at h
    · split at h
      · simp at h
      · simp only [OpResult.err.injEq] at h
        rw [← h.2]
  · split at h
    · simp at h
    · split at h
      · simp at h
      · simp only [OpResult.err.injEq] at h
        rw [← h.2]

theorem add_or_select_failure_state_witness :
    ({ fA with forks := [(⟨"A", none⟩, 0), (⟨"B", none⟩, 1)] } :
        Forker).executor = fA.executor ∧
      (({ fA with forks := [(⟨"A", none⟩, 0), (⟨"B", none⟩, 1)] } :
          Forker).forks = fA.forks ∨
        ({ fA with forks := [(⟨"A", none⟩, 0), (⟨"B", none⟩, 1)] } :
          Forker).forks = fA.forks ++ [(⟨"B", none⟩, fA.forks.length)]) :=
  add_or_select_failure_state oCreateFail fA
    { fA with forks := [(⟨"A", none⟩, 0), (⟨"B", none⟩, 1)] }
    "B" none none "rpc down" (by decide)

/-- C6 counterexample: a typed write whose returned bytes fail to decode
produces a `TypedError` message that does not contain the debug rendering
of the original raw call result (here the engine produced `rawA`): unlike
`alloy_read`, `alloy_write` omits the raw result from its typed-decode
error. -/
theorem alloy_write_decode_error_omits_raw_cex :
    (Forker.alloy_write oOK "IERC20.balanceOfCall" [7] decFail fB addr1
        addr2 0).1 =
      .error (.TypedError "Call:IERC20.balanceOfCall Error:bad") ∧
    hasSub (rawCallResultRepr rawA).data
      "Call:IERC20.balanceOfCall Error:bad".data = false :=
  ⟨rfl, by decide⟩

/-- C6 (amended): a typed call or typed write whose returned bytes cannot
be decoded always fails (never reported as a successful call) with a
`TypedError`; for `alloy_read` its message carries the signature name, the
decode failure detail and the debug-formatted original raw result, while
for `alloy_write` it carries the signature name and the decode failure
detail only (the raw result is omitted). -/
theorem typed_decode_error_contents {Ret : Type} (o : EngineOracle)
    (tn : String) (enc : List Nat) (dec : List Nat → Except String Ret)
    (f : Forker) (a b : Address) (v : Nat) (raw : RawCallResult)
    (st : Store) (e : String) :
    (o.call_raw_with_env (txEnvFor a.val b.val enc) f.activeStore = .ok raw →
      dec raw.result = .error e →
      (Forker.alloy_read o tn enc dec f a b).1 =
        .error (.TypedError ("Call:" ++ tn ++ " Error:" ++ e ++ " Raw:" ++
          rawCallResultRepr raw))) ∧
    (o.call_raw_committing a.val b.val enc v f.activeStore = .ok (raw, st) →
      dec raw.result = .error e →
      (Forker.alloy_write o tn enc dec f a b v).1 =
        .error (.TypedError ("Call:" ++ tn ++ " Error:" ++ e))) := by
  constructor
  · intro hr hd
    simp only [Forker.alloy_read, hr, hd]
  · intro hw hd
    simp only [Forker.alloy_write, hw, hd]

theorem typed_decode_error_contents_witness :
    ((Forker.alloy_read oOK "bal" [7] decFail fB addr1 addr2).1 =
      .error (.TypedError ("Call:" ++ "bal" ++ " Error:" ++ "bad" ++
        " Raw:" ++ rawCallResultRepr rawA))) ∧
    ((Forker.alloy_write oOK "bal" [7] decFail fB addr1 addr2 3).1 =
      .error (.TypedError ("Call:" ++ "bal" ++ " Error:" ++ "bad"))) :=
  ⟨(typed_decode_error_contents oOK "bal" [7] decFail fB addr1 addr2 3 rawA
      (fB.activeStore) "bad").1 rfl rfl,
   (typed_decode_error_contents oOK "bal" [7] decFail fB addr1 addr2 3 rawA
      (fB.activeStore) "bad").2 rfl rfl⟩

/-- C8 counterexample: immediately after session start (`Forker::new`),
before any `add_or_select`, the registry already contains the initial
identity mapped to handle 0 — it is seeded by the constructor, not created
empty and grown only through create-or-select. -/
theorem registry_not_created_empty_cex :
    Forker.new oOK "A" none (some envCustom) none =
      (.ok fA, [.fetchForkEnv "A", .backendSpawn (cfOf "A")]) ∧
    fA.forks ≠ [] :=
  ⟨by decide, by decide⟩

/-- C8 (amended): the registry is created by the constructor already
containing exactly the initial identity mapped to handle 0; thereafter it
only ever grows by appending (entries are never removed), `call`, `write`
and the typed adapters never change it (only `add_or_select` grows it),
and in every reachable state the identity-to-handle mapping is injective:
no two registered identities resolve to the same handle. -/
theorem registry_lifecycle_and_injectivity (o : EngineOracle) :
    (∀ url bn env gl f0 tr, Forker.new o url bn env gl = (.ok f0, tr) →
      f0.forks = [(⟨url, bn⟩, 0)]) ∧
    (∀ f f', Step o f f' → ∃ t, f'.forks = f.forks ++ t) ∧
    (∀ f f' a b c r t, Forker.call o f a b c = (r, f', t) →
      f'.forks = f.forks) ∧
    (∀ f f' a b c v r t, Forker.write o f a b c v = (r, f', t) →
      f'.forks = f.forks) ∧
    (∀ Ret tn enc dec f f' a b r t,
      @Forker.alloy_read Ret o tn enc dec f a b = (r, f', t) →
      f'.forks = f.forks) ∧
    (∀ Ret tn enc dec f f' a b v r t,
      @Forker.alloy_write Ret o tn enc dec f a b v = (r, f', t) →
      f'.forks = f.forks) ∧
    (∀ f, Reachable o f → ∀ i j v, lookupFk f.forks i = some v →
      lookupFk f.forks j = some v → i = j) := by
  refine ⟨?_, ?_, ?_, ?_, ?_, ?_, ?_⟩
  · intro url bn env gl f0 tr h
    exact (new_ok_fields h).1
  · intro f f' h
    exact step_forks_grow h
  · intro f f' a b c r t h
    rw [call_state_unchanged h]
  · intro f f' a b c v r t h
    exact (write_forks_unchanged h).1
  · intro Ret tn enc dec f f' a b r t h
    rw [alloy_read_state_unchanged h]
  · intro Ret tn enc dec f f' a b v r t h
    exact (alloy_write_forks_unchanged h).1
  · intro f hre i j v hi hj
    exact reachable_registry_injective hre hi hj

theorem registry_lifecycle_and_injectivity_witness :
    fA.forks = [(⟨"A", none⟩, 0)] ∧ (⟨"A", none⟩ : ForkId) = ⟨"A", none⟩ :=
  ⟨(registry_lifecycle_and_injectivity oOK).1 "A" none (some envCustom) none
     fA [.fetchForkEnv "A", .backendSpawn (cfOf "A")] (by decide),
   (registry_lifecycle_and_injectivity oOK).2.2.2.2.2.2 fA
     ⟨"A", none, some envCustom, none, fA,
      [.fetchForkEnv "A", .backendSpawn (cfOf "A")], by decide,
      Relation.ReflTransGen.refl⟩
     ⟨"A", none⟩ ⟨"A", none⟩ 0 (by decide) (by decide)⟩

/-- C10: after a successful `Forker::new(url, block, ...)` the identity
`(url, block)` is registered with handle 0; in every state reachable from
it the registry's handle values are exactly the consecutive integers `0`
to `n-1` in registration order and the identity is still registered, so a
later `add_or_select` with the same url and block number takes the
registry-hit path: its trace contains no Provisioner create call and no
remote-environment fetch. -/
theorem new_handle_zero_consecutive_no_reprovision (o : EngineOracle)
    (url : String) (bn : Option Nat) (env env2 : Option Env)
    (gl : Option Nat) (f0 f : Forker) (tr : List EngineEvent)
    (hnew : Forker.new o url bn env gl = (.ok f0, tr))
    (hreach : ReachesFrom o f0 f) :
    f0.forks = [(⟨url, bn⟩, 0)] ∧
    handlesConsecutive f ∧
    lookupFk f.forks ⟨url, bn⟩ = some 0 ∧
    provisionCount (Forker.add_or_select o f url bn env2).2 = 0 ∧
    fetchCount (Forker.add_or_select o f url bn env2).2 = 0 := by
  obtain ⟨hforks, hact⟩ := new_ok_fields hnew
  have hreg0 : lookupFk f0.forks ⟨url, bn⟩ = some 0 := by
    rw [hforks]
    simp [lookupFk]
  obtain ⟨t, ht⟩ := reachesFrom_forks_grow hreach
  have hreg : lookupFk f.forks ⟨url, bn⟩ = some 0 := by
    rw [ht]
    exact lookupFk_append_of_some t hreg0
  obtain ⟨hp, hf⟩ := addOrSelect_hit_no_provision env2 hreg
  exact ⟨hforks,
    reachable_handlesConsecutive ⟨url, bn, env, gl, f0, tr, hnew, hreach⟩,
    hreg, hp, hf⟩

theorem new_handle_zero_consecutive_no_reprovision_witness :
    fA.forks = [(⟨"A", none⟩, 0)] ∧
    handlesConsecutive fA ∧
    lookupFk fA.forks ⟨"A", none⟩ = some 0 ∧
    provisionCount (Forker.add_or_select oOK fA "A" none none).2 = 0 ∧
    fetchCount (Forker.add_or_select oOK fA "A" none none).2 = 0 :=
  new_handle_zero_consecutive_no_reprovision oOK "A" none (some envCustom)
    none none fA fA [.fetchForkEnv "A", .backendSpawn (cfOf "A")]
    (by decide) Relation.ReflTransGen.refl
